import Mathlib

/-!
Verification of the ArduinoSide firmware core of PiToSmartXeDuino.

This file gives a shallow embedding of the C++ sources under
src/ArduinoSide (SrxeInputBuffer.h, SrxeKeyboard.h, SoftClockSerial.cpp,
SerialHelpers.cpp) and proves or refutes the specification claims about
them.

Modelling conventions:
- uint8_t fields are Nat values; where the C++ code increments or
  decrements a uint8_t we write (x + 1) % 256 and (x + 255) % 256 so that
  wraparound behaviour is preserved exactly.
- character arrays are total functions Nat -> Nat (index to byte), with
  pointwise update; uninitialised cells read as 0.
- calls to millis() become an explicit now : Nat parameter.
- Serial.write output is collected as an explicit list of emitted bytes
  (or, at the keyboard-pipeline level, of emitted events).
- screen drawing (SRXEWriteString, SRXEHorizontalLine) is outside this
  core per the specification; of render() we model exactly its effect on
  the editor state (the cursor-blink update and the font-id
  normalisation performed by getCols/getYPosition).
-/

set_option autoImplicit false

namespace PiToSmartXe

/-- Pointwise update of a byte-array model, used for every array store. -/
def updateFn (f : Nat → Nat) (i v : Nat) : Nat → Nat :=
  fun j => if j = i then v else f j

/-! Protocol marker constants, from SerialHelpers.h and SrxeInputBuffer.h. -/

def LINE_START_MARKER : Nat := 0xF8
def LINE_END_MARKER : Nat := 0xF9
def DEBUG_START_MARKER : Nat := 0xFA
def DEBUG_END_MARKER : Nat := 0xFB
def KEY_START_MARKER : Nat := 0xFD
def KEY_END_MARKER : Nat := 0xFE
def KEY_MODIFIER_SHIFT : Nat := 0x10
def KEY_MODIFIER_SYM : Nat := 0x11

/-! Key codes from SrxeInputBuffer.h. -/

def KEY_ENTER : Nat := 0x08
def KEY_BACKSPACE : Nat := 0x7F
def KEY_LEFT : Nat := 0xE3
def KEY_RIGHT : Nat := 0xE2

/-- Column counts of the fontConfig table in SrxeInputBuffer.h
(first entry of each row: 52, 64, 32, 25). -/
def fontConfigCols (fontId : Nat) : Nat :=
  if fontId = 0 then 52
  else if fontId = 1 then 64
  else if fontId = 2 then 32
  else 25

def MAX_INPUT : Nat := 128
def PROMPT_WIDTH : Nat := 5
def BLINK_INTERVAL_MS : Nat := 500

/-- State of SrxeInputBuffer: the raw 129-byte character array is a
function from index to byte, together with the length, cursor, view
offset, font id and cursor-blink fields of the class. -/
structure SrxeInputBuffer where
  buffer : Nat → Nat
  length : Nat
  cursorPos : Nat
  viewOffset : Nat
  fontId : Nat
  cursorVisible : Bool
  lastBlinkTime : Nat

/-- Ascending copy loop of the shift-plus-enter delete branch of
handleKey: while i < stop, buffer[i] = buffer[i+1], i++.  The loop runs
exactly stop - i times, which we use as structural fuel. -/
def shiftLeftAux (buf : Nat → Nat) (i : Nat) : Nat → (Nat → Nat)
  | 0 => buf
  | fuel + 1 => shiftLeftAux (updateFn buf i (buf (i + 1))) (i + 1) fuel

def shiftLeftLoop (buf : Nat → Nat) (i stop : Nat) : Nat → Nat :=
  shiftLeftAux buf i (stop - i)

/-- Descending copy loop of the printable-insert branch of handleKey:
for i from start down while i > cursor, buffer[i] = buffer[i-1]. -/
def shiftRightLoop (buf : Nat → Nat) (cursor : Nat) : Nat → (Nat → Nat)
  | 0 => buf
  | i + 1 =>
    if i + 1 > cursor then
      shiftRightLoop (updateFn buf (i + 1) (buf i)) cursor i
    else buf

/-- SrxeInputBuffer::getCols normalises an out-of-range font id to 0 as
a side effect before indexing the table; this is that side effect. -/
def normaliseFontId (st : SrxeInputBuffer) : SrxeInputBuffer :=
  if st.fontId > 3 then { st with fontId := 0 } else st

/-- SrxeInputBuffer::adjustViewOffset, including the font-id
normalisation performed by the getUsableWidth -> getCols call chain. -/
def adjustViewOffset (st : SrxeInputBuffer) : SrxeInputBuffer :=
  let st := normaliseFontId st
  let usable := fontConfigCols st.fontId - PROMPT_WIDTH
  let visibleChars := if st.viewOffset > 0 then usable - 2 else usable
  let st :=
    if st.cursorPos < st.viewOffset then { st with viewOffset := st.cursorPos } else st
  if st.cursorPos > st.viewOffset + visibleChars then
    { st with viewOffset := st.cursorPos - visibleChars }
  else st

/-- SrxeInputBuffer::clear. -/
def clearBuffer (st : SrxeInputBuffer) (now : Nat) : SrxeInputBuffer :=
  { st with
    length := 0
    cursorPos := 0
    viewOffset := 0
    buffer := updateFn st.buffer 0 0
    cursorVisible := true
    lastBlinkTime := now }

/-- Freshly constructed SrxeInputBuffer (constructor: clear, then font 0). -/
def initialInputBuffer : SrxeInputBuffer :=
  { clearBuffer
      { buffer := fun _ => 0, length := 0, cursorPos := 0, viewOffset := 0,
        fontId := 0, cursorVisible := true, lastBlinkTime := 0 } 0
    with fontId := 0 }

/-- SrxeInputBuffer::handleKey.  Returns the boolean result (true when
an unmodified Enter signals the line is ready) together with the new
state.  Each branch is translated from the corresponding C++ branch;
uint8_t increments and decrements are taken mod 256. -/
def handleKey (st : SrxeInputBuffer) (key : Nat) (shiftPressed : Bool) (now : Nat) :
    Bool × SrxeInputBuffer :=
  let st := { st with cursorVisible := true, lastBlinkTime := now }
  if key = KEY_ENTER ∧ ¬shiftPressed then
    (true, st)
  else if key = KEY_ENTER ∧ shiftPressed then
    if st.cursorPos > 0 then
      let buf := shiftLeftLoop st.buffer (st.cursorPos - 1) (st.length - 1)
      let len := (st.length + 255) % 256
      let cur := (st.cursorPos + 255) % 256
      let buf := updateFn buf len 0
      (false, adjustViewOffset { st with buffer := buf, length := len, cursorPos := cur })
    else (false, st)
  else if key = KEY_BACKSPACE then
    (false, st)
  else if key = KEY_LEFT then
    if st.cursorPos > 0 then
      (false, adjustViewOffset { st with cursorPos := (st.cursorPos + 255) % 256 })
    else (false, st)
  else if key = KEY_RIGHT then
    if st.cursorPos < st.length then
      (false, adjustViewOffset { st with cursorPos := (st.cursorPos + 1) % 256 })
    else (false, st)
  else if 0x20 ≤ key ∧ key ≤ 0x7E then
    if st.length < MAX_INPUT then
      let buf := shiftRightLoop st.buffer st.cursorPos st.length
      let buf := updateFn buf st.cursorPos key
      let len := (st.length + 1) % 256
      let cur := (st.cursorPos + 1) % 256
      let buf := updateFn buf len 0
      (false, adjustViewOffset { st with buffer := buf, length := len, cursorPos := cur })
    else (false, st)
  else
    (false, st)

/-- SrxeInputBuffer::calculateChecksum: a running XOR seeded with
LINE_START_MARKER xor length, folded over the buffered bytes. -/
def calculateChecksum (st : SrxeInputBuffer) : Nat :=
  (List.range st.length).foldl (fun c i => c ^^^ st.buffer i)
    (LINE_START_MARKER ^^^ st.length)

/-- SrxeInputBuffer::sendLine: the exact byte sequence written to the
serial port. -/
def sendLine (st : SrxeInputBuffer) : List Nat :=
  LINE_START_MARKER :: st.length ::
    ((List.range st.length).map st.buffer ++ [calculateChecksum st, LINE_END_MARKER])

/-- Effect of SrxeInputBuffer::render on the editor state: the
cursor-blink toggle on a 500 ms interval, plus the font-id
normalisation done by getCols/getYPosition.  The drawing itself goes to
the external display driver. -/
def renderState (st : SrxeInputBuffer) (now : Nat) : SrxeInputBuffer :=
  let st :=
    if now - st.lastBlinkTime ≥ BLINK_INTERVAL_MS then
      { st with cursorVisible := !st.cursorVisible, lastBlinkTime := now }
    else st
  normaliseFontId st

/-! Bit-level link: SoftClockSerial.  RX_BUFFER_SIZE is 128 and is used
for both the RX and the TX circular buffer.  Byte transmission on the
wire (transmitByte) is modelled as the byte appearing on an output
trace; bit timing is below the byte-level abstraction. -/

def RX_BUFFER_SIZE : Nat := 128

/-- State of a SoftClockSerial link endpoint. -/
structure SoftClockSerial where
  rxBuffer : Nat → Nat
  rxHead : Nat
  rxTail : Nat
  txBuffer : Nat → Nat
  txHead : Nat
  txTail : Nat
  isReceiving : Bool
  framingErrorCount : Nat

/-- State of the endpoint right after the constructor runs: all indices
zero, not receiving, no framing errors.  Buffer cells are uninitialised
in C++ and modelled as 0; they are never read before being written. -/
def initialSerial : SoftClockSerial :=
  { rxBuffer := fun _ => 0, rxHead := 0, rxTail := 0,
    txBuffer := fun _ => 0, txHead := 0, txTail := 0,
    isReceiving := false, framingErrorCount := 0 }

/-- SoftClockSerial::available.  The C++ computes
(_rxHead - _rxTail + RX_BUFFER_SIZE) % RX_BUFFER_SIZE with the uint8_t
operands promoted to int; for head, tail < 128 this equals the Nat
expression below. -/
def availableRx (st : SoftClockSerial) : Nat :=
  (st.rxHead + RX_BUFFER_SIZE - st.rxTail) % RX_BUFFER_SIZE

/-- SoftClockSerial::rxBufferFull. -/
def rxBufferFull (st : SoftClockSerial) : Bool :=
  (st.rxHead + 1) % RX_BUFFER_SIZE = st.rxTail

/-- SoftClockSerial::rxBufferPush: store at the head and advance it,
unless the buffer is full, in which case the new byte is dropped. -/
def rxBufferPush (st : SoftClockSerial) (b : Nat) : SoftClockSerial :=
  if rxBufferFull st then st
  else
    { st with
      rxBuffer := updateFn st.rxBuffer st.rxHead b
      rxHead := (st.rxHead + 1) % RX_BUFFER_SIZE }

/-- SoftClockSerial::read: pop the oldest byte, or return -1 when the
buffer is empty. -/
def readRx (st : SoftClockSerial) : Int × SoftClockSerial :=
  if st.rxHead = st.rxTail then (-1, st)
  else
    (Int.ofNat (st.rxBuffer st.rxTail),
      { st with rxTail := (st.rxTail + 1) % RX_BUFFER_SIZE })

/-- SoftClockSerial::txBufferFull. -/
def txBufferFull (st : SoftClockSerial) : Bool :=
  (st.txHead + 1) % RX_BUFFER_SIZE = st.txTail

/-- SoftClockSerial::txBufferPush. -/
def txBufferPush (st : SoftClockSerial) (b : Nat) : SoftClockSerial :=
  if txBufferFull st then st
  else
    { st with
      txBuffer := updateFn st.txBuffer st.txHead b
      txHead := (st.txHead + 1) % RX_BUFFER_SIZE }

/-- SoftClockSerial::write(uint8_t): while the receive window is open
the byte goes to the TX queue and nothing is driven on the line;
otherwise transmitByte drives it immediately.  The second component is
the trace of bytes driven on the transmit line by this call. -/
def writeSerial (st : SoftClockSerial) (b : Nat) : SoftClockSerial × List Nat :=
  if st.isReceiving then (txBufferPush st b, [])
  else (st, [b])

/-- Number of bytes queued in the TX circular buffer. -/
def txPendingCount (st : SoftClockSerial) : Nat :=
  (st.txHead + RX_BUFFER_SIZE - st.txTail) % RX_BUFFER_SIZE

/-- Queued TX bytes in FIFO order, oldest first. -/
def txContent (st : SoftClockSerial) : List Nat :=
  (List.range (txPendingCount st)).map
    (fun i => st.txBuffer ((st.txTail + i) % RX_BUFFER_SIZE))

/-- Buffered RX bytes in FIFO order, oldest first. -/
def rxContent (st : SoftClockSerial) : List Nat :=
  (List.range (availableRx st)).map
    (fun i => st.rxBuffer ((st.rxTail + i) % RX_BUFFER_SIZE))

/-- Loop body of SoftClockSerial::flushTxBuffer: while the TX queue is
non-empty, pop the oldest byte and transmit it.  For any state with
head and tail below 128 the loop ends within 128 iterations, which we
use as structural fuel; the guard is re-checked every iteration exactly
as in the source. -/
def flushTxAux : Nat → SoftClockSerial → SoftClockSerial × List Nat
  | 0, st => (st, [])
  | fuel + 1, st =>
    if st.txHead = st.txTail then (st, [])
    else
      let b := st.txBuffer st.txTail
      let st1 : SoftClockSerial := { st with txTail := (st.txTail + 1) % RX_BUFFER_SIZE }
      let rest := flushTxAux fuel st1
      (rest.1, b :: rest.2)

/-- SoftClockSerial::flushTxBuffer, returning the trace of bytes driven
on the transmit line. -/
def flushTxBuffer (st : SoftClockSerial) : SoftClockSerial × List Nat :=
  flushTxAux RX_BUFFER_SIZE st

/-- SoftClockSerial::update, at the byte level.  The incoming parameter
is the list of bytes successfully assembled during this receive window
(bit sampling and the 10 ms timeout are below this abstraction).  The
receiving flag is set for the duration of the window, each received
byte is pushed into the RX circular buffer, the flag is cleared when
the window closes, and only then is the TX queue flushed onto the wire.
The second component is the trace of bytes driven on the transmit line. -/
def updateSerial (st : SoftClockSerial) (incoming : List Nat) :
    SoftClockSerial × List Nat :=
  let st1 : SoftClockSerial := { st with isReceiving := true }
  let st2 := incoming.foldl rxBufferPush st1
  let st3 : SoftClockSerial := { st2 with isReceiving := false }
  flushTxBuffer st3

/-! Framing helpers from SerialHelpers.cpp. -/

/-- Bytes emitted by sendKeyPacket: start marker, code, checksum equal
to marker xor code, end marker. -/
def sendKeyPacketBytes (key : Nat) : List Nat :=
  [KEY_START_MARKER, key, KEY_START_MARKER ^^^ key, KEY_END_MARKER]

/-- Serial bytes emitted by sendDebugPacket when serial debug output is
enabled: one start marker, every byte of the message (strlen semantics:
the message is the NUL-free character list), one end marker.  When the
flag is off nothing is written to the serial port. -/
def sendDebugPacketSerialBytes (enableDebugThroughSerial : Bool) (message : List Nat) :
    List Nat :=
  if enableDebugThroughSerial then
    DEBUG_START_MARKER :: (message ++ [DEBUG_END_MARKER])
  else []

/-! Keyboard pipeline: SrxeKeyboard.h.  The matrix decoder (SRXEGetKey,
SRXEGetKeyMap) is external; its results are the key / shift / sym
parameters of one readKeyboard step.  Emitted traffic is modelled as a
list of events; sprintf-formatted debug text is represented by the data
it formats. -/

/-- Debug messages emitted by the keyboard pipeline, represented by the
data the C++ sprintf call formats into the shared buffer. -/
inductive DebugMsg where
  | keyReport (key : Nat) (shift sym : Bool)
  | statusBarToggled (enabled : Bool)
  | debugToScreenToggled (enabled : Bool)
  | debugThroughSerialToggled (enabled : Bool)
  deriving DecidableEq

/-- Observable output events of one readKeyboard step. -/
inductive KbEvent where
  | keyPacket (code : Nat)
  | lineFrame (bytes : List Nat)
  | debugFrame (msg : DebugMsg)
  | screenDebug (msg : DebugMsg)
  deriving DecidableEq

/-- Process-wide flags and status variables from SerialHelpers.cpp that
the keyboard pipeline reads or toggles. -/
structure KbGlobals where
  enableShowStatusBar : Bool
  enableDebugToScreen : Bool
  enableDebugThroughSerial : Bool
  lastKeyPressed : Nat
  deriving DecidableEq

/-- Events of one sendDebugPacket call: a screen write when on-screen
debug is enabled, a serial debug frame when serial debug is enabled. -/
def sendDebugPacketEvents (g : KbGlobals) (msg : DebugMsg) : List KbEvent :=
  (if g.enableDebugToScreen then [KbEvent.screenDebug msg] else []) ++
    (if g.enableDebugThroughSerial then [KbEvent.debugFrame msg] else [])

/-- Deny-list of known-noisy key codes (SrxeKeyboard::badKeys). -/
def badKeys : List Nat := [0x0A, 0xAA, 0x98, 0x97, 0x96, 0x04, 0x1E]

def BAD_KEYBOARD : Bool := true

/-- SrxeKeyboard::isBadKey. -/
def isBadKey (key : Nat) : Bool :=
  if !BAD_KEYBOARD then false else badKeys.contains key

/-- SrxeKeyboard::isValidKey.  The function body is a single return
true; the deny-list validation below it is commented out in the
source. -/
def isValidKey (_key : Nat) : Bool :=
  true

/-- SrxeKeyboard::shouldSendImmediately. -/
def shouldSendImmediately (key : Nat) (symPressed shiftPressed : Bool) : Bool :=
  if shiftPressed ∧ (key = 0x30 ∨ key = 0x31 ∨ key = 0x32 ∨ key = 0x33) then true
  else if symPressed ∧ key = 0x63 then true
  else false

/-- SrxeKeyboard::shouldSendModifier.  The three keyboard lookup tables
are extern data owned by the display library, so they are passed as
explicit arguments; out-of-range positions read as 0. -/
def shouldSendModifier (originalKeys shiftedKeys symKeys : List Nat)
    (keyPosition : Nat) (isShift isSym : Bool) : Bool :=
  if isShift ∧ originalKeys.getD keyPosition 0 = shiftedKeys.getD keyPosition 0 ∧
      originalKeys.getD keyPosition 0 ≠ 0 then
    true
  else if isSym ∧
      (symKeys.getD keyPosition 0 = originalKeys.getD keyPosition 0 ∨
        symKeys.getD keyPosition 0 = 0) ∧
      originalKeys.getD keyPosition 0 ≠ 0 then
    true
  else false

/-- SrxeKeyboard::findKeyPosition: the first of the 60 key positions
whose unmodified (or, with the respective modifier held, shifted or
sym) mapping equals the key, or -1. -/
def findKeyPosition (originalKeys shiftedKeys symKeys : List Nat)
    (key : Nat) (shiftPressed symPressed : Bool) : Int :=
  match (List.range 60).find? (fun i =>
      originalKeys.getD i 0 = key ∨
        (shiftPressed ∧ shiftedKeys.getD i 0 = key) ∨
        (symPressed ∧ symKeys.getD i 0 = key)) with
  | some i => Int.ofNat i
  | none => -1

/-- SrxeKeyboard::isSpecialFunctionOnArduinoSide: the three key-0xF0
combinations toggle a diagnostic flag and report the new value over the
debug channel (the report is emitted with the already-toggled flags,
matching the source order).  Returns the boolean result, the updated
globals, and the emitted events. -/
def isSpecialFunctionOnArduinoSide (g : KbGlobals) (key : Nat)
    (symPressed shiftPressed : Bool) : Bool × KbGlobals × List KbEvent :=
  if key = 0xF0 ∧ ¬symPressed ∧ ¬shiftPressed then
    let g1 := { g with enableShowStatusBar := !g.enableShowStatusBar }
    (true, g1, sendDebugPacketEvents g1 (DebugMsg.statusBarToggled g1.enableShowStatusBar))
  else if key = 0xF0 ∧ symPressed ∧ ¬shiftPressed then
    let g1 := { g with enableDebugToScreen := !g.enableDebugToScreen }
    (true, g1, sendDebugPacketEvents g1 (DebugMsg.debugToScreenToggled g1.enableDebugToScreen))
  else if key = 0xF0 ∧ ¬symPressed ∧ shiftPressed then
    let g1 := { g with enableDebugThroughSerial := !g.enableDebugThroughSerial }
    (true, g1, sendDebugPacketEvents g1 (DebugMsg.debugThroughSerialToggled g1.enableDebugThroughSerial))
  else (false, g, [])

/-- State of SrxeKeyboard together with the globals it touches. -/
structure SrxeKeyboard where
  inputBuffer : SrxeInputBuffer
  lastKey : Nat
  lastKeyTime : Nat
  globals : KbGlobals

def KEY_DEBOUNCE_MS : Nat := 25

/-- One call of SrxeKeyboard::readKeyboard.  The key and the two
modifier flags come from the external matrix decoder, now is the
millis() reading of this loop iteration.  Returns the boolean result
(true when a complete line was sent), the new state and the emitted
events, following the source line by line: render first, the zero-key
path clears the last key, the debounce test gates everything else, the
debug key report precedes classification, and an accepted key always
ends by updating the last key and its timestamp. -/
def readKeyboard (st : SrxeKeyboard) (key : Nat) (shiftPressed symPressed : Bool)
    (now : Nat) : Bool × SrxeKeyboard × List KbEvent :=
  let ib0 := renderState st.inputBuffer now
  if key ≠ 0 ∧ isValidKey key then
    if key ≠ st.lastKey ∨ now - st.lastKeyTime > KEY_DEBOUNCE_MS then
      let ev0 := sendDebugPacketEvents st.globals (DebugMsg.keyReport key shiftPressed symPressed)
      let g0 := { st.globals with lastKeyPressed := key }
      if shouldSendImmediately key symPressed shiftPressed then
        let modEv :=
          if shiftPressed then [KbEvent.keyPacket KEY_MODIFIER_SHIFT]
          else if symPressed then [KbEvent.keyPacket KEY_MODIFIER_SYM]
          else []
        (false,
          { inputBuffer := ib0, lastKey := key, lastKeyTime := now, globals := g0 },
          ev0 ++ modEv ++ [KbEvent.keyPacket key])
      else
        let special := isSpecialFunctionOnArduinoSide g0 key symPressed shiftPressed
        if special.1 then
          (false,
            { inputBuffer := ib0, lastKey := key, lastKeyTime := now,
              globals := special.2.1 },
            ev0 ++ special.2.2)
        else
          let handled := handleKey ib0 key shiftPressed now
          if handled.1 then
            (true,
              { inputBuffer := handled.2, lastKey := key, lastKeyTime := now,
                globals := g0 },
              ev0 ++ [KbEvent.lineFrame (sendLine handled.2)])
          else
            (false,
              { inputBuffer := handled.2, lastKey := key, lastKeyTime := now,
                globals := g0 },
              ev0)
    else
      (false, { st with inputBuffer := ib0 }, [])
  else
    (false, { st with inputBuffer := ib0, lastKey := 0 }, [])

/-- Line frames among a list of emitted events. -/
def lineFrames (evs : List KbEvent) : List (List Nat) :=
  evs.filterMap (fun e =>
    match e with
    | KbEvent.lineFrame bytes => some bytes
    | _ => none)

/-! Theorems. -/

/-- Content of the line buffer: the length-many buffered characters in
order, as read by sendLine and calculateChecksum. -/
def lineContent (st : SrxeInputBuffer) : List Nat :=
  (List.range st.length).map st.buffer

lemma foldl_xor_init (g : Nat → Nat) (l : List Nat) (a : Nat) :
    l.foldl (fun x y => x ^^^ g y) a = a ^^^ l.foldl (fun x y => x ^^^ g y) 0 := by
  induction l generalizing a with
  | nil => simp
  | cons b l ih =>
    simp only [List.foldl_cons]
    rw [ih (a ^^^ g b), ih (0 ^^^ g b), Nat.zero_xor, Nat.xor_assoc]

lemma calculateChecksum_eq (st : SrxeInputBuffer) :
    calculateChecksum st =
      LINE_START_MARKER ^^^ st.length ^^^
        (lineContent st).foldl (fun x y => x ^^^ y) 0 := by
  unfold calculateChecksum lineContent
  rw [List.foldl_map, foldl_xor_init st.buffer]

lemma adjustViewOffset_length (st : SrxeInputBuffer) :
    (adjustViewOffset st).length = st.length := by
  unfold adjustViewOffset normaliseFontId
  dsimp only
  repeat' split
  all_goals rfl

lemma adjustViewOffset_cursorPos (st : SrxeInputBuffer) :
    (adjustViewOffset st).cursorPos = st.cursorPos := by
  unfold adjustViewOffset normaliseFontId
  dsimp only
  repeat' split
  all_goals rfl

/-- Claim C1.  For every editor state, sendLine emits exactly the frame
consisting of the start marker 0xF8, the length, the buffered
characters in order, the checksum 0xF8 xor length xor (running xor of
the characters), and the end marker 0xF9; and the end-to-end scenario
of inserting the letters h and i into a fresh buffer (font id 0) and
confirming emits the frame F8 02 68 69 FB F9, where FB is 0xF8 xor 2
xor 0x68 xor 0x69. -/
theorem sendLine_emits_framed_checksummed_line (st : SrxeInputBuffer) :
    sendLine st =
      LINE_START_MARKER :: st.length ::
        (lineContent st ++
          [LINE_START_MARKER ^^^ st.length ^^^
            (lineContent st).foldl (fun x y => x ^^^ y) 0,
           LINE_END_MARKER]) ∧
    (lineContent st).length = st.length ∧
    (handleKey (handleKey (handleKey initialInputBuffer 0x68 false 0).2
        0x69 false 0).2 0x08 false 0).1 = true ∧
    sendLine (handleKey (handleKey (handleKey initialInputBuffer 0x68 false 0).2
        0x69 false 0).2 0x08 false 0).2 =
      [0xF8, 0x02, 0x68, 0x69, 0xF8 ^^^ 0x02 ^^^ 0x68 ^^^ 0x69, 0xF9] := by
  refine ⟨?_, ?_, by decide, by decide⟩
  · unfold sendLine
    rw [calculateChecksum_eq]
    rfl
  · simp [lineContent]

/-- Editor invariant used by claim C6. -/
def editorInv (st : SrxeInputBuffer) : Prop :=
  st.cursorPos ≤ st.length ∧ st.length ≤ 128

lemma handleKey_preserves_inv (st : SrxeInputBuffer) (key : Nat) (shift : Bool)
    (now : Nat) (h : editorInv st) : editorInv (handleKey st key shift now).2 := by
  obtain ⟨hc, hl⟩ := h
  unfold editorInv handleKey
  dsimp only
  repeat' split
  all_goals try simp only [adjustViewOffset_cursorPos, adjustViewOffset_length]
  all_goals simp only [MAX_INPUT, KEY_ENTER, KEY_BACKSPACE, KEY_LEFT, KEY_RIGHT] at *
  all_goals omega

/-- Folding a list of key events (key code, shift flag, millis reading)
through handleKey. -/
def runKeys (st : SrxeInputBuffer) : List (Nat × Bool × Nat) → SrxeInputBuffer
  | [] => st
  | op :: rest => runKeys (handleKey st op.1 op.2.1 op.2.2).2 rest

lemma runKeys_preserves_inv (ops : List (Nat × Bool × Nat)) (st : SrxeInputBuffer)
    (h : editorInv st) : editorInv (runKeys st ops) := by
  induction ops generalizing st with
  | nil => exact h
  | cons op rest ih =>
    exact ih _ (handleKey_preserves_inv st op.1 op.2.1 op.2.2 h)

/-- Claim C6.  Starting from a cleared buffer, after any sequence of
handleKey calls (with arbitrary key codes, shift flags and times, which
includes printable inserts, shift-enter deletes and cursor moves) the
line-editor invariant 0 <= cursor <= length <= 128 holds. -/
theorem handleKey_cursor_length_invariant (st0 : SrxeInputBuffer) (t0 : Nat)
    (ops : List (Nat × Bool × Nat)) :
    (runKeys (clearBuffer st0 t0) ops).cursorPos ≤ (runKeys (clearBuffer st0 t0) ops).length ∧
      (runKeys (clearBuffer st0 t0) ops).length ≤ 128 :=
  runKeys_preserves_inv ops (clearBuffer st0 t0)
    ⟨by simp [clearBuffer], by simp [clearBuffer]⟩

/-- Claim C10.  Key code 0x7F (the documented dedicated backspace code)
hits the empty KEY_BACKSPACE branch of handleKey: for every editor
state and either modifier value the call returns false and the only
fields touched are the blink-visible flag (set to true) and the blink
timer (set to the current time); buffer, length, cursor and view offset
are unchanged. -/
theorem handleKey_backspace_code_is_noop (st : SrxeInputBuffer) (shift : Bool)
    (now : Nat) :
    handleKey st 0x7F shift now =
      (false, { st with cursorVisible := true, lastBlinkTime := now }) := by
  simp [handleKey, KEY_ENTER, KEY_BACKSPACE]

lemma renderState_buffer (st : SrxeInputBuffer) (now : Nat) :
    (renderState st now).buffer = st.buffer := by
  unfold renderState normaliseFontId
  dsimp only
  repeat' split
  all_goals rfl

lemma renderState_length (st : SrxeInputBuffer) (now : Nat) :
    (renderState st now).length = st.length := by
  unfold renderState normaliseFontId
  dsimp only
  repeat' split
  all_goals rfl

lemma sendLine_congr (s1 s2 : SrxeInputBuffer) (hb : s1.buffer = s2.buffer)
    (hl : s1.length = s2.length) : sendLine s1 = sendLine s2 := by
  unfold sendLine calculateChecksum
  rw [hb, hl]

lemma lineFrames_sendDebugPacketEvents (g : KbGlobals) (msg : DebugMsg) :
    lineFrames (sendDebugPacketEvents g msg) = [] := by
  unfold sendDebugPacketEvents lineFrames
  split_ifs <;> rfl

lemma lineFrames_append (evs1 evs2 : List KbEvent) :
    lineFrames (evs1 ++ evs2) = lineFrames evs1 ++ lineFrames evs2 :=
  List.filterMap_append evs1 evs2 _

/-- Input-buffer state after an accepted unmodified Enter inside one
readKeyboard call: the render pass followed by the blink reset of
handleKey. -/
def afterEnterIB (ib : SrxeInputBuffer) (t : Nat) : SrxeInputBuffer :=
  { renderState ib t with cursorVisible := true, lastBlinkTime := t }

lemma readKeyboard_enter (st : SrxeKeyboard) (sym : Bool) (t : Nat)
    (h : 0x08 ≠ st.lastKey ∨ t - st.lastKeyTime > KEY_DEBOUNCE_MS) :
    readKeyboard st 0x08 false sym t =
      (true,
        { inputBuffer := afterEnterIB st.inputBuffer t,
          lastKey := 0x08, lastKeyTime := t,
          globals := { st.globals with lastKeyPressed := 0x08 } },
        sendDebugPacketEvents st.globals (DebugMsg.keyReport 0x08 false sym) ++
          [KbEvent.lineFrame (sendLine (afterEnterIB st.inputBuffer t))]) := by
  unfold readKeyboard afterEnterIB
  rw [if_pos (by simp [isValidKey]), if_pos h]
  simp [shouldSendImmediately, isSpecialFunctionOnArduinoSide, handleKey, KEY_ENTER]

/-- Claim C7.  An unmodified confirm does not clear or modify the line
buffer (the clear call after sendLine is absent), so two consecutive
accepted unmodified Enter events with no intervening edits both signal
a sent line and emit line frames with byte-for-byte identical
content. -/
theorem unmodified_confirm_is_idempotent (st : SrxeKeyboard) (sym1 sym2 : Bool)
    (t1 t2 : Nat)
    (h1 : 0x08 ≠ st.lastKey ∨ t1 - st.lastKeyTime > KEY_DEBOUNCE_MS)
    (h2 : t2 - t1 > KEY_DEBOUNCE_MS) :
    (readKeyboard st 0x08 false sym1 t1).1 = true ∧
    (readKeyboard (readKeyboard st 0x08 false sym1 t1).2.1 0x08 false sym2 t2).1 = true ∧
    lineFrames (readKeyboard st 0x08 false sym1 t1).2.2 ≠ [] ∧
    lineFrames (readKeyboard st 0x08 false sym1 t1).2.2 =
      lineFrames (readKeyboard (readKeyboard st 0x08 false sym1 t1).2.1
        0x08 false sym2 t2).2.2 := by
  rw [readKeyboard_enter st sym1 t1 h1]
  dsimp only
  rw [readKeyboard_enter _ sym2 t2 (Or.inr (by simpa using h2))]
  dsimp only
  have hb : (afterEnterIB st.inputBuffer t1).buffer =
      (afterEnterIB (afterEnterIB st.inputBuffer t1) t2).buffer := by
    simp [afterEnterIB, renderState_buffer]
  have hl : (afterEnterIB st.inputBuffer t1).length =
      (afterEnterIB (afterEnterIB st.inputBuffer t1) t2).length := by
    simp [afterEnterIB, renderState_length]
  rw [sendLine_congr _ _ hb hl]
  simp only [lineFrames_append, lineFrames_sendDebugPacketEvents, List.nil_append]
  simp [lineFrames]

/-- Globals configuration with both debug channels off, used for
concrete instantiations. -/
def quietGlobals : KbGlobals :=
  { enableShowStatusBar := true
    enableDebugToScreen := false
    enableDebugThroughSerial := false
    lastKeyPressed := 0 }

/-- Concrete keyboard state used to instantiate the hypotheses of the
confirm-idempotence theorem. -/
def confirmWitnessState : SrxeKeyboard :=
  { inputBuffer := (handleKey (handleKey initialInputBuffer 0x68 false 0).2
      0x69 false 0).2,
    lastKey := 0, lastKeyTime := 0,
    globals := quietGlobals }

/-- Witness for claim C7 at a concrete state holding the characters h
and i, with the two confirms at 100 ms and 130 ms. -/
theorem unmodified_confirm_is_idempotent_witness :
    (readKeyboard confirmWitnessState 0x08 false false 100).1 = true ∧
    (readKeyboard (readKeyboard confirmWitnessState 0x08 false false 100).2.1
      0x08 false false 130).1 = true ∧
    lineFrames (readKeyboard confirmWitnessState 0x08 false false 100).2.2 ≠ [] ∧
    lineFrames (readKeyboard confirmWitnessState 0x08 false false 100).2.2 =
      lineFrames (readKeyboard (readKeyboard confirmWitnessState 0x08 false false 100).2.1
        0x08 false false 130).2.2 :=
  unmodified_confirm_is_idempotent confirmWitnessState false false 100 130
    (Or.inl (by decide)) (by decide)

lemma isSpecialFunction_lastKeyPressed (g : KbGlobals) (key : Nat)
    (symPressed shiftPressed : Bool) :
    (isSpecialFunctionOnArduinoSide g key symPressed shiftPressed).2.1.lastKeyPressed =
      g.lastKeyPressed := by
  unfold isSpecialFunctionOnArduinoSide
  dsimp only
  repeat' split
  all_goals rfl

/-- Concrete keyboard state with a hidden cursor, used to exhibit that
a deny-listed key is not dropped. -/
def denyKeyState : SrxeKeyboard :=
  { inputBuffer := { initialInputBuffer with cursorVisible := false },
    lastKey := 0, lastKeyTime := 0, globals := quietGlobals }

/-- Counterexample to claim C3.  The deny-listed code 0x0A is in
badKeys, yet one readKeyboard step on it reaches the line editor: the
blink-visible flag of the editor flips from false to true (a state
change in the editor caused by handleKey) and the pipeline records it
as the last accepted key, so the code is not dropped. -/
theorem denylisted_key_not_dropped_counterexample :
    isBadKey 0x0A = true ∧
    denyKeyState.inputBuffer.cursorVisible = false ∧
    (readKeyboard denyKeyState 0x0A false false 0).2.1.inputBuffer.cursorVisible = true ∧
    (readKeyboard denyKeyState 0x0A false false 0).2.1.lastKey = 0x0A := by
  decide

/-- Claim C3 as amended.  The shipped isValidKey accepts every key code
(the deny-list check is commented out), so an accepted deny-listed code
is processed like any ordinary key: it is classified, routed to the
input buffer through handleKey, and recorded as the last key; it is not
dropped. -/
theorem denylisted_keys_are_routed_to_buffer (st : SrxeKeyboard) (key : Nat)
    (shift sym : Bool) (now : Nat) (hk : key ∈ badKeys)
    (hd : key ≠ st.lastKey ∨ now - st.lastKeyTime > KEY_DEBOUNCE_MS) :
    readKeyboard st key shift sym now =
      (false,
        { inputBuffer := (handleKey (renderState st.inputBuffer now) key shift now).2,
          lastKey := key, lastKeyTime := now,
          globals := { st.globals with lastKeyPressed := key } },
        sendDebugPacketEvents st.globals (DebugMsg.keyReport key shift sym)) := by
  fin_cases hk <;>
    simp [readKeyboard, isValidKey, shouldSendImmediately,
      isSpecialFunctionOnArduinoSide, handleKey, KEY_ENTER, KEY_BACKSPACE,
      KEY_LEFT, KEY_RIGHT, hd]

/-- Witness for the amended claim C3 at the concrete deny-listed code
0x0A. -/
theorem denylisted_keys_are_routed_to_buffer_witness :
    readKeyboard denyKeyState 0x0A false false 0 =
      (false,
        { inputBuffer := (handleKey (renderState denyKeyState.inputBuffer 0) 0x0A false 0).2,
          lastKey := 0x0A, lastKeyTime := 0,
          globals := { denyKeyState.globals with lastKeyPressed := 0x0A } },
        sendDebugPacketEvents denyKeyState.globals (DebugMsg.keyReport 0x0A false false)) :=
  denylisted_keys_are_routed_to_buffer denyKeyState 0x0A false false 0 (by decide)
    (Or.inl (by decide))

/-- Concrete keyboard state whose last accepted key is 0x41 at time 0,
used at the 25 ms debounce boundary. -/
def debounceState : SrxeKeyboard :=
  { inputBuffer := initialInputBuffer, lastKey := 0x41, lastKeyTime := 0,
    globals := quietGlobals }

/-- Counterexample to claim C8.  With exactly 25 ms elapsed since the
previous acceptance of the same code 0x41, the claim says the repeat is
accepted, but the code compares with strict greater-than and suppresses
it: the step emits nothing, does not record an acceptance (lastKeyTime
and lastKeyPressed keep their old values) and returns false. -/
theorem debounce_boundary_counterexample :
    25 - debounceState.lastKeyTime = 25 ∧
    (readKeyboard debounceState 0x41 false false 25).1 = false ∧
    (readKeyboard debounceState 0x41 false false 25).2.2 = [] ∧
    (readKeyboard debounceState 0x41 false false 25).2.1.lastKeyTime = 0 ∧
    (readKeyboard debounceState 0x41 false false 25).2.1.globals.lastKeyPressed = 0 := by
  decide

/-- Claim C8 as amended.  A repeat of the previously accepted code is
suppressed while at most 25 ms have elapsed (the step only performs the
render pass and emits nothing), and is accepted only when strictly more
than 25 ms have elapsed; a different code is accepted regardless of
elapsed time (acceptance observable as the updated last-key-pressed
status and the acceptance timestamp). -/
theorem debounce_accepts_only_after_strictly_25ms (st : SrxeKeyboard) (key : Nat)
    (shift sym : Bool) (now : Nat) (hk : key ≠ 0) :
    ((key = st.lastKey ∧ now - st.lastKeyTime ≤ KEY_DEBOUNCE_MS) →
        readKeyboard st key shift sym now =
          (false, { st with inputBuffer := renderState st.inputBuffer now }, [])) ∧
    ((key ≠ st.lastKey ∨ now - st.lastKeyTime > KEY_DEBOUNCE_MS) →
        (readKeyboard st key shift sym now).2.1.globals.lastKeyPressed = key ∧
        (readKeyboard st key shift sym now).2.1.lastKeyTime = now) := by
  constructor
  · rintro ⟨he, hle⟩
    unfold readKeyboard
    dsimp only
    rw [if_pos ⟨hk, rfl⟩, if_neg]
    rintro (hne | hgt)
    · exact hne he
    · omega
  · intro h
    unfold readKeyboard
    dsimp only
    rw [if_pos ⟨hk, rfl⟩, if_pos h]
    split
    · exact ⟨rfl, rfl⟩
    · split
      · exact ⟨isSpecialFunction_lastKeyPressed _ key sym shift, rfl⟩
      · split
        · exact ⟨rfl, rfl⟩
        · exact ⟨rfl, rfl⟩

/-- Witness for the amended claim C8 at the concrete boundary state. -/
theorem debounce_accepts_only_after_strictly_25ms_witness :
    ((0x41 = debounceState.lastKey ∧ 25 - debounceState.lastKeyTime ≤ KEY_DEBOUNCE_MS) →
        readKeyboard debounceState 0x41 false false 25 =
          (false,
            { debounceState with inputBuffer := renderState debounceState.inputBuffer 25 },
            [])) ∧
    ((0x41 ≠ debounceState.lastKey ∨ 25 - debounceState.lastKeyTime > KEY_DEBOUNCE_MS) →
        (readKeyboard debounceState 0x41 false false 25).2.1.globals.lastKeyPressed = 0x41 ∧
        (readKeyboard debounceState 0x41 false false 25).2.1.lastKeyTime = 25) :=
  debounce_accepts_only_after_strictly_25ms debounceState 0x41 false false 25 (by decide)

/-- Keyboard lookup tables for the modifier-prefix counterexample: at
position 0 the unmodified mapping is the digit key 0x30 (an
immediate-send key with shift) while the shifted mapping 0x29 is
distinct and non-zero, so the shifted mapping at that position is
distinguishable from the unmodified one. -/
def exOriginalKeys : List Nat := [0x30]

def exShiftedKeys : List Nat := [0x29]

def exSymKeys : List Nat := [0]

/-- Concrete keyboard state for the modifier-prefix claims. -/
def fontKeyState : SrxeKeyboard :=
  { inputBuffer := initialInputBuffer, lastKey := 0, lastKeyTime := 0,
    globals := quietGlobals }

/-- Counterexample to claim C5.  For tables in which key 0x30 resolves
to position 0 with a distinguishable shifted mapping, shouldSendModifier
answers false, yet pressing shift with the immediate-send key 0x30
emits the shift modifier packet 0x10 before the key packet: readKeyboard
sends the modifier unconditionally (the table comparison is commented
out). -/
theorem modifier_prefix_counterexample :
    findKeyPosition exOriginalKeys exShiftedKeys exSymKeys 0x30 true false = 0 ∧
    shouldSendModifier exOriginalKeys exShiftedKeys exSymKeys 0 true false = false ∧
    (readKeyboard fontKeyState 0x30 true false 0).2.2 =
      [KbEvent.keyPacket KEY_MODIFIER_SHIFT, KbEvent.keyPacket 0x30] := by
  decide

/-- Claim C5 as amended.  For every accepted immediate-send key, a
modifier packet (0x10 when shift is held, otherwise 0x11 when sym is
held) is always sent before the key packet whenever the modifier is
held, without consulting the lookup tables or shouldSendModifier. -/
theorem immediate_send_modifier_unconditional (st : SrxeKeyboard) (key : Nat)
    (shift sym : Bool) (now : Nat)
    (hd : key ≠ st.lastKey ∨ now - st.lastKeyTime > KEY_DEBOUNCE_MS)
    (hk : key ≠ 0) (hi : shouldSendImmediately key sym shift = true) :
    readKeyboard st key shift sym now =
      (false,
        { inputBuffer := renderState st.inputBuffer now,
          lastKey := key, lastKeyTime := now,
          globals := { st.globals with lastKeyPressed := key } },
        sendDebugPacketEvents st.globals (DebugMsg.keyReport key shift sym) ++
          (if shift then [KbEvent.keyPacket KEY_MODIFIER_SHIFT]
           else if sym then [KbEvent.keyPacket KEY_MODIFIER_SYM]
           else []) ++ [KbEvent.keyPacket key]) := by
  unfold readKeyboard
  dsimp only
  rw [if_pos ⟨hk, rfl⟩, if_pos hd, if_pos hi]

/-- Witness for the amended claim C5: shift held with the digit key
0x30. -/
theorem immediate_send_modifier_unconditional_witness :
    readKeyboard fontKeyState 0x30 true false 0 =
      (false,
        { inputBuffer := renderState fontKeyState.inputBuffer 0,
          lastKey := 0x30, lastKeyTime := 0,
          globals := { fontKeyState.globals with lastKeyPressed := 0x30 } },
        sendDebugPacketEvents fontKeyState.globals (DebugMsg.keyReport 0x30 true false) ++
          [KbEvent.keyPacket KEY_MODIFIER_SHIFT] ++ [KbEvent.keyPacket 0x30]) :=
  immediate_send_modifier_unconditional fontKeyState 0x30 true false 0
    (Or.inl (by decide)) (by decide) (by decide)

/-- Counterexample to claim C4.  A 64-byte debug text is emitted as a
single frame of 66 bytes: exactly one start marker, the 64 payload
bytes (more than 63) and exactly one end marker; no chunking takes
place. -/
theorem debug_packet_not_chunked_counterexample :
    sendDebugPacketSerialBytes true (List.replicate 64 0x41) =
      DEBUG_START_MARKER :: (List.replicate 64 0x41 ++ [DEBUG_END_MARKER]) ∧
    (sendDebugPacketSerialBytes true (List.replicate 64 0x41)).count DEBUG_START_MARKER = 1 ∧
    (sendDebugPacketSerialBytes true (List.replicate 64 0x41)).count DEBUG_END_MARKER = 1 ∧
    (sendDebugPacketSerialBytes true (List.replicate 64 0x41)).length = 66 := by
  decide

/-- Claim C4 as amended.  sendDebugPacket performs no chunking: with
serial debug enabled it wraps the whole text in one start/end marker
pair, emitting text-length plus two bytes, so the payload between the
markers stays within 63 bytes exactly when the text itself is at most
63 bytes (which callers ensure by formatting messages into the shared
64-byte buffer). -/
theorem sendDebugPacket_single_frame (message : List Nat) :
    sendDebugPacketSerialBytes true message =
      DEBUG_START_MARKER :: (message ++ [DEBUG_END_MARKER]) ∧
    (sendDebugPacketSerialBytes true message).length = message.length + 2 ∧
    (message.length ≤ 63 ↔ (sendDebugPacketSerialBytes true message).length ≤ 65) := by
  refine ⟨rfl, ?_, ?_⟩
  · simp [sendDebugPacketSerialBytes]
  · simp [sendDebugPacketSerialBytes]

/-- The RX circular buffer after a sequence of rxBufferPush calls
starting from the freshly constructed endpoint. -/
def pushAllRx (bs : List Nat) : SoftClockSerial :=
  bs.foldl rxBufferPush initialSerial

lemma pushAllRx_spec (bs : List Nat) :
    (pushAllRx bs).rxTail = 0 ∧
    (pushAllRx bs).rxHead = min bs.length 127 ∧
    ∀ i, i < min bs.length 127 → (pushAllRx bs).rxBuffer i = bs.getD i 0 := by
  induction bs using List.reverseRecOn with
  | nil =>
    refine ⟨rfl, rfl, ?_⟩
    intro i hi
    simp at hi
  | append_singleton bs b ih =>
    obtain ⟨ht, hh, hb⟩ := ih
    have hfold : pushAllRx (bs ++ [b]) = rxBufferPush (pushAllRx bs) b := by
      simp [pushAllRx, List.foldl_append]
    rw [hfold]
    by_cases hlen : bs.length < 127
    · have hnotfull : rxBufferFull (pushAllRx bs) = false := by
        simp only [rxBufferFull, hh, ht, RX_BUFFER_SIZE]
        simp only [decide_eq_false_iff_not]
        omega
      refine ⟨?_, ?_, ?_⟩
      · simp [rxBufferPush, hnotfull, ht]
      · simp only [rxBufferPush, hnotfull, Bool.false_eq_true, if_false, hh,
          RX_BUFFER_SIZE, List.length_append, List.length_singleton]
        omega
      · intro i hi
        simp only [rxBufferPush, hnotfull, Bool.false_eq_true, if_false, hh, ht]
        simp only [List.length_append, List.length_singleton] at hi
        unfold updateFn
        by_cases hib : i = bs.length
        · subst hib
          rw [if_pos (by omega)]
          rw [List.getD_append_right _ _ _ _ (Nat.le_refl _)]
          simp
        · rw [if_neg (by omega)]
          rw [hb i (by omega), List.getD_append _ _ _ _ (by omega)]
    · have hfull : rxBufferFull (pushAllRx bs) = true := by
        simp only [rxBufferFull, hh, ht, RX_BUFFER_SIZE]
        simp only [decide_eq_true_eq]
        omega
      refine ⟨?_, ?_, ?_⟩
      · simp [rxBufferPush, hfull, ht]
      · simp only [rxBufferPush, hfull, if_true, hh, List.length_append,
          List.length_singleton]
        omega
      · intro i hi
        simp only [rxBufferPush, hfull, if_true]
        simp only [List.length_append, List.length_singleton] at hi
        rw [hb i (by omega), List.getD_append _ _ _ _ (by omega)]

lemma rxContent_pushAllRx (bs : List Nat) :
    rxContent (pushAllRx bs) = bs.take 127 := by
  obtain ⟨ht, hh, hb⟩ := pushAllRx_spec bs
  unfold rxContent availableRx
  rw [ht, hh]
  apply List.ext_getElem
  · simp only [List.length_map, List.length_range, List.length_take, RX_BUFFER_SIZE]
    omega
  · intro i h1 h2
    simp only [List.getElem_map, List.getElem_range, List.getElem_take]
    simp only [List.length_map, List.length_range, RX_BUFFER_SIZE] at h1
    have hi : i < min bs.length 127 := by omega
    rw [show (0 + i) % RX_BUFFER_SIZE = i by simp only [RX_BUFFER_SIZE]; omega]
    rw [hb i hi, List.getD_eq_getElem _ _ (by omega)]

/-- Claim C2.  For every sequence of rxBufferPush calls starting from
the fresh endpoint: the readable RX content equals the first 127 bytes
pushed (a push onto a full buffer drops the newest byte), available
never exceeds 127, head and tail stay below the capacity 128, the
buffer reads empty exactly when head equals tail, and a push leaves the
state unchanged exactly when (head + 1) mod 128 equals tail. -/
theorem rx_circular_buffer_properties (bs : List Nat) (b : Nat) :
    rxContent (pushAllRx bs) = bs.take 127 ∧
    availableRx (pushAllRx bs) ≤ 127 ∧
    (pushAllRx bs).rxHead < 128 ∧
    (pushAllRx bs).rxTail < 128 ∧
    (rxContent (pushAllRx bs) = [] ↔ (pushAllRx bs).rxHead = (pushAllRx bs).rxTail) ∧
    (rxBufferPush (pushAllRx bs) b = pushAllRx bs ↔
      ((pushAllRx bs).rxHead + 1) % RX_BUFFER_SIZE = (pushAllRx bs).rxTail) := by
  obtain ⟨ht, hh, hb⟩ := pushAllRx_spec bs
  refine ⟨rxContent_pushAllRx bs, ?_, ?_, ?_, ?_, ?_, ?_⟩
  · unfold availableRx
    simp only [RX_BUFFER_SIZE]
    omega
  · rw [hh]; omega
  · rw [ht]; omega
  · rw [rxContent_pushAllRx bs, ht, hh]
    constructor
    · intro he
      have hlen := congrArg List.length he
      rw [List.length_take] at hlen
      simp only [List.length_nil] at hlen
      omega
    · intro he
      have h0 : bs.length = 0 := by omega
      cases bs with
      | nil => simp
      | cons a l => simp at h0
  · intro heq
    by_contra hnf
    have hfalse : rxBufferFull (pushAllRx bs) = false := by
      simp only [rxBufferFull, decide_eq_false_iff_not]
      exact hnf
    have hhead := congrArg SoftClockSerial.rxHead heq
    simp only [rxBufferPush, hfalse, Bool.false_eq_true, if_false] at hhead
    rw [hh, ht] at hnf
    rw [hh] at hhead
    simp only [RX_BUFFER_SIZE] at hnf hhead
    omega
  · intro hfullp
    have hfull : rxBufferFull (pushAllRx bs) = true := by
      simp only [rxBufferFull, decide_eq_true_eq]
      exact hfullp
    simp [rxBufferPush, hfull]

lemma txContent_congr (s1 s2 : SoftClockSerial) (hb : s1.txBuffer = s2.txBuffer)
    (hh : s1.txHead = s2.txHead) (ht : s1.txTail = s2.txTail) :
    txContent s1 = txContent s2 := by
  unfold txContent txPendingCount
  rw [hb, hh, ht]

lemma rxBufferPush_tx_fields (st : SoftClockSerial) (b : Nat) :
    (rxBufferPush st b).txBuffer = st.txBuffer ∧
    (rxBufferPush st b).txHead = st.txHead ∧
    (rxBufferPush st b).txTail = st.txTail := by
  unfold rxBufferPush
  split <;> exact ⟨rfl, rfl, rfl⟩

lemma foldl_rxBufferPush_tx_fields (incoming : List Nat) (st : SoftClockSerial) :
    (incoming.foldl rxBufferPush st).txBuffer = st.txBuffer ∧
    (incoming.foldl rxBufferPush st).txHead = st.txHead ∧
    (incoming.foldl rxBufferPush st).txTail = st.txTail := by
  induction incoming generalizing st with
  | nil => exact ⟨rfl, rfl, rfl⟩
  | cons c rest ih =>
    obtain ⟨ihb, ihh, iht⟩ := ih (rxBufferPush st c)
    obtain ⟨pb, ph, pt⟩ := rxBufferPush_tx_fields st c
    exact ⟨ihb.trans pb, ihh.trans ph, iht.trans pt⟩

lemma txContent_cons (st : SoftClockSerial) (hh : st.txHead < 128)
    (ht : st.txTail < 128) (hne : st.txHead ≠ st.txTail) :
    txContent st =
      st.txBuffer st.txTail ::
        txContent { st with txTail := (st.txTail + 1) % RX_BUFFER_SIZE } := by
  have hp : 0 < txPendingCount st := by
    unfold txPendingCount
    simp only [RX_BUFFER_SIZE]
    omega
  have hp1 : txPendingCount { st with txTail := (st.txTail + 1) % RX_BUFFER_SIZE } =
      txPendingCount st - 1 := by
    unfold txPendingCount
    simp only [RX_BUFFER_SIZE]
    omega
  apply List.ext_getElem
  · simp only [txContent, List.length_cons, List.length_map, List.length_range, hp1]
    omega
  · intro i h1 h2
    simp only [txContent, List.length_map, List.length_range] at h1
    match i with
    | 0 =>
      simp only [txContent, List.getElem_map, List.getElem_range, List.getElem_cons_zero]
      congr 1
      simp only [RX_BUFFER_SIZE]
      omega
    | j + 1 =>
      simp only [txContent, List.getElem_map, List.getElem_range, List.getElem_cons_succ,
        hp1] at h2 ⊢
      congr 1
      simp only [RX_BUFFER_SIZE]
      omega

lemma flushTxAux_spec (fuel : Nat) :
    ∀ st : SoftClockSerial, txPendingCount st ≤ fuel → st.txHead < 128 →
      st.txTail < 128 →
      flushTxAux fuel st = ({ st with txTail := st.txHead }, txContent st) := by
  induction fuel with
  | zero =>
    intro st hp hh ht
    have he : st.txHead = st.txTail := by
      unfold txPendingCount at hp
      simp only [RX_BUFFER_SIZE] at hp
      omega
    have hc : txContent st = [] := by
      unfold txContent txPendingCount
      simp only [RX_BUFFER_SIZE]
      rw [show (st.txHead + 128 - st.txTail) % 128 = 0 by omega]
      simp
    rw [hc]
    unfold flushTxAux
    obtain ⟨rb, rh, rt, tb, th, tt, ir, fe⟩ := st
    simp_all
  | succ fuel ih =>
    intro st hp hh ht
    by_cases he : st.txHead = st.txTail
    · have hc : txContent st = [] := by
        unfold txContent txPendingCount
        simp only [RX_BUFFER_SIZE]
        rw [show (st.txHead + 128 - st.txTail) % 128 = 0 by omega]
        simp
      rw [hc]
      unfold flushTxAux
      rw [if_pos he]
      obtain ⟨rb, rh, rt, tb, th, tt, ir, fe⟩ := st
      simp_all
    · have hp1 : txPendingCount { st with txTail := (st.txTail + 1) % RX_BUFFER_SIZE } =
          txPendingCount st - 1 := by
        unfold txPendingCount
        simp only [RX_BUFFER_SIZE]
        omega
      have hppos : 0 < txPendingCount st := by
        unfold txPendingCount
        simp only [RX_BUFFER_SIZE]
        omega
      have ihr := ih { st with txTail := (st.txTail + 1) % RX_BUFFER_SIZE }
        (by omega) hh (by simp only [RX_BUFFER_SIZE]; omega)
      unfold flushTxAux
      rw [if_neg he]
      dsimp only
      rw [ihr]
      rw [txContent_cons st hh ht he]

lemma updateSerial_spec (s2 : SoftClockSerial) (incoming : List Nat)
    (h2 : s2.txHead < 128) (t2 : s2.txTail < 128) :
    (updateSerial s2 incoming).2 = txContent s2 ∧
    (updateSerial s2 incoming).1.isReceiving = false := by
  obtain ⟨fb, fh, ft⟩ := foldl_rxBufferPush_tx_fields incoming { s2 with isReceiving := true }
  have h3h : (incoming.foldl rxBufferPush { s2 with isReceiving := true }).txHead < 128 := by
    rw [fh]; exact h2
  have h3t : (incoming.foldl rxBufferPush { s2 with isReceiving := true }).txTail < 128 := by
    rw [ft]; exact t2
  unfold updateSerial
  dsimp only
  rw [flushTxBuffer, flushTxAux_spec RX_BUFFER_SIZE _
    (by unfold txPendingCount; simp only [RX_BUFFER_SIZE]; omega)
    (by exact h3h) (by exact h3t)]
  exact ⟨txContent_congr _ _ fb fh ft, rfl⟩

/-- SoftClockSerial state with a full TX queue while a receive window
is open. -/
def txFullState : SoftClockSerial :=
  { initialSerial with txHead := 127, isReceiving := true }

set_option maxRecDepth 8192 in
/-- Counterexample to claim C9.  With the TX circular buffer full (127
queued bytes) and the receiving flag set, write drops the byte 0x41
instead of enqueuing it: the queue content is unchanged and the byte is
never transmitted when the receive window closes and the queue is
flushed. -/
theorem tx_full_write_dropped_counterexample :
    txFullState.isReceiving = true ∧
    txBufferFull txFullState = true ∧
    (writeSerial txFullState 0x41).2 = [] ∧
    txContent (writeSerial txFullState 0x41).1 = List.replicate 127 0 ∧
    (updateSerial (writeSerial txFullState 0x41).1 []).2 = List.replicate 127 0 ∧
    0x41 ∉ (updateSerial (writeSerial txFullState 0x41).1 []).2 := by
  decide

/-- Claim C9 as amended.  While the receiving flag is set, write drives
nothing on the transmit line; the byte is enqueued into the TX buffer
unless the buffer is already full, in which case it is silently
dropped; the queued bytes are transmitted only by the flush that runs
after update closes the receive window, in FIFO order. -/
theorem write_during_receive_deferred (st : SoftClockSerial) (b : Nat)
    (incoming : List Nat) (hr : st.isReceiving = true)
    (hh : st.txHead < 128) (ht : st.txTail < 128) :
    (writeSerial st b).2 = [] ∧
    (txBufferFull st = false →
      txContent (writeSerial st b).1 = txContent st ++ [b]) ∧
    (txBufferFull st = true → (writeSerial st b).1 = st) ∧
    (updateSerial (writeSerial st b).1 incoming).2 = txContent (writeSerial st b).1 ∧
    (updateSerial (writeSerial st b).1 incoming).1.isReceiving = false := by
  have hw1 : (writeSerial st b).1 = txBufferPush st b := by
    unfold writeSerial
    rw [if_pos hr]
  have hpos : (txBufferPush st b).txHead < 128 ∧ (txBufferPush st b).txTail < 128 := by
    unfold txBufferPush
    split
    · exact ⟨hh, ht⟩
    · refine ⟨?_, ht⟩
      simp only [RX_BUFFER_SIZE]
      omega
  have hwh : (writeSerial st b).1.txHead < 128 := by rw [hw1]; exact hpos.1
  have hwt : (writeSerial st b).1.txTail < 128 := by rw [hw1]; exact hpos.2
  refine ⟨?_, ?_, ?_, ?_, ?_⟩
  · unfold writeSerial
    rw [if_pos hr]
  · intro hnf
    rw [hw1]
    have hnfp : (st.txHead + 1) % RX_BUFFER_SIZE ≠ st.txTail := by
      simpa [txBufferFull, decide_eq_false_iff_not] using hnf
    have hpush : txBufferPush st b =
        { st with
          txBuffer := updateFn st.txBuffer st.txHead b
          txHead := (st.txHead + 1) % RX_BUFFER_SIZE } := by
      unfold txBufferPush
      rw [if_neg (by simp_all [txBufferFull])]
    rw [hpush]
    have hp1 : txPendingCount
        { st with
          txBuffer := updateFn st.txBuffer st.txHead b
          txHead := (st.txHead + 1) % RX_BUFFER_SIZE } = txPendingCount st + 1 := by
      unfold txPendingCount
      dsimp only
      simp only [RX_BUFFER_SIZE] at *
      omega
    have hclen : (txContent st).length = txPendingCount st := by
      simp [txContent]
    apply List.ext_getElem
    · simp only [txContent, List.length_map, List.length_range, List.length_append,
        List.length_cons, List.length_nil, hp1]
    · intro i h1 h2
      simp only [txContent, List.length_map, List.length_range, hp1] at h1
      simp only [txContent, List.getElem_map, List.getElem_range]
      by_cases hip : i < txPendingCount st
      · rw [List.getElem_append_left
          (by simp only [List.length_map, List.length_range]; exact hip)]
        simp only [List.getElem_map, List.getElem_range]
        unfold updateFn
        rw [if_neg (by
          unfold txPendingCount at hip
          simp only [RX_BUFFER_SIZE] at *
          omega)]
      · have hie : i = (txContent st).length := by omega
        subst hie
        rw [List.getElem_append_right
          (by simp only [List.length_map, List.length_range]; omega)]
        rw [List.getElem_singleton]
        unfold updateFn
        rw [if_pos (by
          unfold txPendingCount at hclen
          simp only [RX_BUFFER_SIZE] at hclen ⊢
          omega)]
  · intro hf
    rw [hw1]
    unfold txBufferPush
    rw [if_pos hf]
  · exact (updateSerial_spec (writeSerial st b).1 incoming hwh hwt).1
  · exact (updateSerial_spec (writeSerial st b).1 incoming hwh hwt).2

/-- Witness for the amended claim C9 at the concrete full-queue state. -/
theorem write_during_receive_deferred_witness :
    (writeSerial txFullState 0x41).2 = [] ∧
    (txBufferFull txFullState = false →
      txContent (writeSerial txFullState 0x41).1 = txContent txFullState ++ [0x41]) ∧
    (txBufferFull txFullState = true → (writeSerial txFullState 0x41).1 = txFullState) ∧
    (updateSerial (writeSerial txFullState 0x41).1 []).2 =
      txContent (writeSerial txFullState 0x41).1 ∧
    (updateSerial (writeSerial txFullState 0x41).1 []).1.isReceiving = false :=
  write_during_receive_deferred txFullState 0x41 [] (by decide) (by decide) (by decide)

end PiToSmartXe
